import Mathlib

/-!
Verification of the chip8rust emulator core against its specification.

Shallow embedding conventions:
* Rust `u8`/`u16`/`usize` values are `Nat`, with `% 256` / `% 0x10000` made
  explicit where the source relies on fixed-width wrapping.
* The 4096-byte heap, the stack vector and the 16 V registers are total
  functions `Nat → Nat`; only indices below the container length are ever
  read or written by the embedded operations.
* A Rust function is embedded as a pure function from the relevant
  configuration and state to the pair of its return value and the updated
  state.  The shared `active : AtomicBool` is a field of the state.
  An operation that can abort the process by indexing a slice out of range
  returns `Option _`, with `none` standing for that abort.
* Threading, locking, timing and rendering flags are not modelled; every
  claim below is about the sequential semantics of single operations.
-/

namespace Chip8

def HEAP_SIZE : Nat := 0x1000

/-- Configuration of the RAM component (`RAMConfig` in src/config.rs); the
font fields do not influence any modelled operation and are omitted. -/
structure RAMConfig where
  stack_size : Nat
  allow_stack_overflow : Bool
  allow_heap_overflow : Bool

/-- Mutable state owned by `RAM` in src/ram.rs, together with the shared
`active` flag. -/
structure RAMState where
  active : Bool
  heap : Nat → Nat
  stack : Nat → Nat
  stack_ptr : Nat

namespace RAM

/-- `RAM::write_bytes` (src/ram.rs lines 114-139).  The result is `none`
when the Rust code would index a slice out of range and abort, and
otherwise `some (ok, new state)`. -/
def write_bytes (cfg : RAMConfig) (s : RAMState) (vals : List Nat) (addr : Nat) :
    Option (Bool × RAMState) :=
  let count := vals.length
  if addr + count > HEAP_SIZE then
    if cfg.allow_heap_overflow = false then
      some (false, { s with active := false })
    else
      let count_pre_split := HEAP_SIZE - addr
      let count_post_split := count - count_pre_split
      if addr > HEAP_SIZE ∨ count_post_split > HEAP_SIZE then
        none
      else
        some (true,
          { s with heap := fun a =>
              if a < count_post_split then vals.getD (count_pre_split + a) 0
              else if addr ≤ a ∧ a < HEAP_SIZE then vals.getD (a - addr) 0
              else s.heap a })
  else
    some (true,
      { s with heap := fun a =>
          if addr ≤ a ∧ a < addr + count then vals.getD (a - addr) 0
          else s.heap a })

/-- `RAM::read_bytes` (src/ram.rs lines 150-174).  `none` is the slice
out-of-range abort; `some (none, _)` is the fail-stop on a disallowed heap
overflow. -/
def read_bytes (cfg : RAMConfig) (s : RAMState) (addr count : Nat) :
    Option (Option (List Nat) × RAMState) :=
  if addr + count > HEAP_SIZE then
    if cfg.allow_heap_overflow = false then
      some (none, { s with active := false })
    else
      let count_pre_split := HEAP_SIZE - addr
      let count_post_split := count - count_pre_split
      if addr > HEAP_SIZE ∨ count_post_split > HEAP_SIZE then
        none
      else
        some (some ((List.range count_pre_split).map (fun j => s.heap (addr + j)) ++
                    (List.range count_post_split).map (fun j => s.heap j)), s)
  else
    some (some ((List.range count).map (fun j => s.heap (addr + j))), s)

/-- `RAM::push_to_stack` (src/ram.rs lines 176-198). -/
def push_to_stack (cfg : RAMConfig) (s : RAMState) (val : Nat) : Bool × RAMState :=
  if s.stack_ptr = cfg.stack_size then
    if cfg.allow_stack_overflow = false then
      (false, { s with active := false })
    else
      (true, { s with stack := fun i => if i = 0 then val else s.stack i,
                      stack_ptr := 1 })
  else
    (true, { s with stack := fun i => if i = s.stack_ptr then val else s.stack i,
                    stack_ptr := s.stack_ptr + 1 })

/-- `RAM::pop_from_stack` (src/ram.rs lines 200-218). -/
def pop_from_stack (cfg : RAMConfig) (s : RAMState) : Option Nat × RAMState :=
  if s.stack_ptr = 0 then
    if cfg.allow_stack_overflow = false then
      (none, { s with active := false })
    else
      (some (s.stack (cfg.stack_size - 1)), { s with stack_ptr := cfg.stack_size - 1 })
  else
    (some (s.stack (s.stack_ptr - 1)), { s with stack_ptr := s.stack_ptr - 1 })

end RAM

/-- Configuration of the GPU component as used by src/gpu.rs; the colour
and render-occasion fields do not influence the drawn pixels and are
omitted. -/
structure GPUConfig where
  horizontal_resolution : Nat
  vertical_resolution : Nat
  wrap_sprite_positions : Bool
  wrap_sprite_pixels : Bool

namespace GPU

/-- `GPU::draw_pixel` (src/gpu.rs lines 183-206): resolve the target
coordinate, XOR the pixel, and report whether it was already lit.  The
framebuffer is the `Vec<bool>` of length `W*H`, indexed `y*W + x`. -/
def draw_pixel (cfg : GPUConfig) (framebuffer : List Bool) (x_pos y_pos : Nat) :
    List Bool × Option Bool :=
  let width := cfg.horizontal_resolution
  let height := cfg.vertical_resolution
  if cfg.wrap_sprite_pixels then
    let x := x_pos % width
    let y := y_pos % height
    let index := y * width + x
    let collision := framebuffer.getD index false
    (framebuffer.set index (xor collision true), some collision)
  else
    if x_pos ≥ width ∨ y_pos ≥ height then
      (framebuffer, none)
    else
      let index := y_pos * width + x_pos
      let collision := framebuffer.getD index false
      (framebuffer.set index (xor collision true), some collision)

/-- The loop body of `GPU::draw_byte` (src/gpu.rs lines 158-181): the list
argument is the remaining loop indices `(0..8).rev()`, the `byte` is shifted
right once per iteration and its low bit selects whether to draw at
horizontal offset `i`. -/
def draw_byte_go (cfg : GPUConfig) (x_pos y_pos : Nat) :
    List Nat → Nat → List Bool → Bool → List Bool × Bool
  | [], _, framebuffer, collided => (framebuffer, collided)
  | i :: rest, byte, framebuffer, collided =>
    let should_draw_bit := byte &&& 0x01 = 1
    let byte' := byte >>> 1
    if should_draw_bit then
      let r := draw_pixel cfg framebuffer (x_pos + i) y_pos
      draw_byte_go cfg x_pos y_pos rest byte' r.1 (collided || (r.2 == some true))
    else
      draw_byte_go cfg x_pos y_pos rest byte' framebuffer collided

/-- `GPU::draw_byte`: iterate `i` over `(0..8).rev()` starting from a clear
collision flag. -/
def draw_byte (cfg : GPUConfig) (framebuffer : List Bool) (byte : Nat)
    (x_pos y_pos : Nat) : List Bool × Bool :=
  draw_byte_go cfg x_pos y_pos ((List.range 8).reverse) byte framebuffer false

/-- The row loop of `GPU::draw_sprite` (src/gpu.rs lines 145-149): row `i`
is drawn at `y_pos + i`, and the collision results are OR-ed together. -/
def draw_rows (cfg : GPUConfig) (framebuffer : List Bool) :
    List Nat → Nat → Nat → List Bool × Bool
  | [], _, _ => (framebuffer, false)
  | b :: rest, x_pos, y_pos =>
    let r := draw_byte cfg framebuffer b x_pos y_pos
    let r' := draw_rows cfg r.1 rest x_pos (y_pos + 1)
    (r'.1, r.2 || r'.2)

/-- `GPU::draw_sprite` (src/gpu.rs lines 123-156): wrap or reject the
starting position, then draw each sprite row.  (The debug-only size
assertion and the render-queued store are not modelled.) -/
def draw_sprite (cfg : GPUConfig) (framebuffer : List Bool) (sprite : List Nat)
    (x_pos y_pos : Nat) : List Bool × Bool :=
  if cfg.wrap_sprite_positions then
    draw_rows cfg framebuffer sprite (x_pos % cfg.horizontal_resolution)
      (y_pos % cfg.vertical_resolution)
  else
    if x_pos ≥ cfg.horizontal_resolution ∨ y_pos ≥ cfg.vertical_resolution then
      (framebuffer, false)
    else
      draw_rows cfg framebuffer sprite x_pos y_pos

/-- The starting-position step of `GPU::draw_sprite`: the effective x
coordinate actually used for drawing. -/
def effective_x (cfg : GPUConfig) (x : Nat) : Nat :=
  if cfg.wrap_sprite_positions then x % cfg.horizontal_resolution else x

/-- The starting-position step of `GPU::draw_sprite`: the effective y
coordinate actually used for drawing. -/
def effective_y (cfg : GPUConfig) (y : Nat) : Nat :=
  if cfg.wrap_sprite_positions then y % cfg.vertical_resolution else y

/-- The coordinate resolution performed by `draw_pixel`: the framebuffer
index targeted by an attempt to draw at `(x, y)`, or `none` when the pixel
is discarded by the clipping policy. -/
def resolve_index (cfg : GPUConfig) (x y : Nat) : Option Nat :=
  if cfg.wrap_sprite_pixels then
    some ((y % cfg.vertical_resolution) * cfg.horizontal_resolution +
          x % cfg.horizontal_resolution)
  else
    if x ≥ cfg.horizontal_resolution ∨ y ≥ cfg.vertical_resolution then none
    else some (y * cfg.horizontal_resolution + x)

/-- Modelled from the spec (section 4.4 / claim C1): sprite row `i`, bit
`b` (bit 0 leftmost) is a lit sprite bit that resolves to framebuffer
index `p`. -/
def sprite_covers (cfg : GPUConfig) (sprite : List Nat) (x y p : Nat) : Bool :=
  (List.range sprite.length).any fun i =>
    (List.range 8).any fun b =>
      (((sprite.getD i 0) >>> (7 - b)) % 2 == 1) &&
        (resolve_index cfg (x + b) (y + i) == some p)

/-- Modelled from the spec (section 8 / claim C1): the collision flag the
specification predicts — some lit sprite bit resolves to a pixel that was
already lit before the draw. -/
def spec_collision (cfg : GPUConfig) (framebuffer : List Bool) (sprite : List Nat)
    (x y : Nat) : Bool :=
  (List.range sprite.length).any fun i =>
    (List.range 8).any fun b =>
      (((sprite.getD i 0) >>> (7 - b)) % 2 == 1) &&
        ((resolve_index cfg (x + b) (y + i)).map
          (fun p => framebuffer.getD p false)).getD false

/-- One abstract draw step: flip the target pixel and OR the collision. -/
def draw_step (p : List Bool × Bool) (t : Nat) : List Bool × Bool :=
  (p.1.set t (!(p.1.getD t false)), p.2 || p.1.getD t false)

/-- The framebuffer indices targeted by the lit bits of one sprite byte,
in the order `draw_byte` processes them. -/
def bit_targets (cfg : GPUConfig) (x_pos y_pos : Nat) :
    List Nat → Nat → List Nat
  | [], _ => []
  | i :: rest, byte =>
    (if byte &&& 0x01 = 1 then (resolve_index cfg (x_pos + i) y_pos).toList else []) ++
      bit_targets cfg x_pos y_pos rest (byte >>> 1)

/-- The framebuffer indices targeted by the lit bits of a whole sprite, in
drawing order. -/
def sprite_targets (cfg : GPUConfig) : List Nat → Nat → Nat → List Nat
  | [], _, _ => []
  | b :: rest, x_pos, y_pos =>
    bit_targets cfg x_pos y_pos ((List.range 8).reverse) b ++
      sprite_targets cfg rest x_pos (y_pos + 1)

end GPU

/-- Configuration of the CPU (`CPUConfig` in src/config.rs, field list as in
the src/cpu.rs constructors); `instructions_per_second` and the randomness
fields do not influence any modelled instruction and are omitted. -/
structure CPUConfig where
  use_new_shift_instruction : Bool
  use_new_jump_instruction : Bool
  set_flag_for_index_overflow : Bool
  move_index_with_reads : Bool
  allow_program_counter_overflow : Bool
  allow_index_register_overflow : Bool

/-- The CPU registers of src/cpu.rs plus the RAM it owns a handle to.  The
shared `active` flag lives inside `ram`. -/
structure CPUState where
  ram : RAMState
  pc : Nat
  index : Nat
  v : Nat → Nat

namespace CPU

/-- A single store `v[reg] = val` into the register file. -/
def set_reg (v : Nat → Nat) (reg val : Nat) : Nat → Nat :=
  fun r => if r = reg then val else v r

/-- `CPU::set_v_reg_range(reg, vals)` (src/cpu.rs lines 299-307):
`v[reg..reg+vals.len()]` is overwritten by `vals`. -/
def set_v_reg_range (v : Nat → Nat) (reg : Nat) (vals : List Nat) : Nat → Nat :=
  fun r => if reg ≤ r ∧ r < reg + vals.length then vals.getD (r - reg) 0 else v r

/-- `CPU::fetch_instruction` (src/cpu.rs lines 145-161).  Outer `none` is
the slice out-of-range abort inside `read_bytes`; `some (none, _)` means no
opcode was produced.  On success the opcode is the big-endian pair of the
bytes read. -/
def fetch_instruction (ccfg : CPUConfig) (rcfg : RAMConfig) (s : CPUState) :
    Option (Option Nat × CPUState) :=
  if s.pc ≥ 0xFFE ∧ ccfg.allow_program_counter_overflow = false then
    some (none, { s with ram := { s.ram with active := false } })
  else
    match RAM.read_bytes rcfg s.ram s.pc 2 with
    | none => none
    | some (none, ram') => some (none, { s with ram := ram' })
    | some (some instruction_bytes, ram') =>
      some (some ((instruction_bytes.getD 0 0) <<< 8 ||| instruction_bytes.getD 1 0),
            { s with ram := ram', pc := (s.pc + 2) % 0x1000 })

/-- `CPU::increment_pc` (src/cpu.rs lines 189-200). -/
def increment_pc (ccfg : CPUConfig) (s : CPUState) : Bool × CPUState :=
  if s.pc ≥ 0xFFE ∧ ccfg.allow_program_counter_overflow = false then
    (false, { s with ram := { s.ram with active := false } })
  else
    (true, { s with pc := (s.pc + 2) % 0x1000 })

/-- `CPU::increment_index_reg_ref_by` (src/cpu.rs lines 225-241): 16-bit
overflowing add on the index register, with the overflow policy. -/
def increment_index_reg_ref_by (ccfg : CPUConfig) (s : CPUState) (value : Nat) :
    Option Bool × CPUState :=
  let val := (s.index + value) % 0x10000
  let wrapped := s.index + value ≥ 0x10000
  if wrapped ∧ ccfg.allow_index_register_overflow = false then
    (none, { s with ram := { s.ram with active := false } })
  else
    (some (decide (val > 0xFFF)), { s with index := val })

end CPU

namespace Instructions

open CPU

/-- `i_8xy1_OR_Vx_Vy` (src/instructions.rs lines 235-239). -/
def i_8xy1_OR_Vx_Vy (_ccfg : CPUConfig) (s : CPUState) (x y : Nat) : CPUState :=
  { s with v := set_reg s.v x (s.v x ||| s.v y) }

/-- `i_8xy2_AND_Vx_Vy` (src/instructions.rs lines 242-246). -/
def i_8xy2_AND_Vx_Vy (_ccfg : CPUConfig) (s : CPUState) (x y : Nat) : CPUState :=
  { s with v := set_reg s.v x (s.v x &&& s.v y) }

/-- `i_8xy3_XOR_Vx_Vy` (src/instructions.rs lines 249-253). -/
def i_8xy3_XOR_Vx_Vy (_ccfg : CPUConfig) (s : CPUState) (x y : Nat) : CPUState :=
  { s with v := set_reg s.v x (s.v x ^^^ s.v y) }

/-- `i_8xy4_ADD_Vx_Vy` (src/instructions.rs lines 256-263): `v[x]` receives
the wrapping 8-bit sum, then `v[0xF]` receives the carry. -/
def i_8xy4_ADD_Vx_Vy (_ccfg : CPUConfig) (s : CPUState) (x y : Nat) : CPUState :=
  let val := (s.v x + s.v y) % 256
  let wrapped := s.v x + s.v y ≥ 256
  { s with v := set_reg (set_reg s.v x val) 0xF (if wrapped then 1 else 0) }

/-- `i_8xy5_SUB_Vx_Vy` (src/instructions.rs lines 266-273): wrapping 8-bit
`v[x] - v[y]` into `v[x]`, then the negated borrow into `v[0xF]`. -/
def i_8xy5_SUB_Vx_Vy (_ccfg : CPUConfig) (s : CPUState) (x y : Nat) : CPUState :=
  let val := (256 + s.v x - s.v y) % 256
  let wrapped := s.v x < s.v y
  { s with v := set_reg (set_reg s.v x val) 0xF (if wrapped then 0 else 1) }

/-- `i_8xy6_SHR_Vx` (src/instructions.rs lines 276-288). -/
def i_8xy6_SHR_Vx (ccfg : CPUConfig) (s : CPUState) (x y : Nat) : CPUState :=
  let v_used := if ccfg.use_new_shift_instruction then s.v x else s.v y
  { s with v := set_reg (set_reg s.v x (v_used >>> 1)) 0xF (v_used &&& 1) }

/-- `i_8xy7_SUBN_Vx_Vy` (src/instructions.rs lines 291-298): wrapping 8-bit
`v[y] - v[x]` into `v[x]`, then the negated borrow into `v[0xF]`. -/
def i_8xy7_SUBN_Vx_Vy (_ccfg : CPUConfig) (s : CPUState) (x y : Nat) : CPUState :=
  let val := (256 + s.v y - s.v x) % 256
  let wrapped := s.v y < s.v x
  { s with v := set_reg (set_reg s.v x val) 0xF (if wrapped then 0 else 1) }

/-- `i_8xyE_SHL_Vx` (src/instructions.rs lines 301-313): the u8 left shift
discards the bit shifted out, hence the `% 256`. -/
def i_8xyE_SHL_Vx (ccfg : CPUConfig) (s : CPUState) (x y : Nat) : CPUState :=
  let v_used := if ccfg.use_new_shift_instruction then s.v x else s.v y
  { s with v := set_reg (set_reg s.v x ((v_used <<< 1) % 256)) 0xF ((v_used &&& 0x80) >>> 7) }

/-- `i_Fx33_LD_B_Vx` (src/instructions.rs lines 428-433): write the BCD
digits of `v[x]` at the index register; the success flag of `write_bytes`
is discarded by the instruction.  `none` is the slice out-of-range abort. -/
def i_Fx33_LD_B_Vx (rcfg : RAMConfig) (s : CPUState) (x : Nat) : Option CPUState :=
  let vx := s.v x
  let bcd := [vx / 100, (vx / 10) % 10, vx % 10]
  match RAM.write_bytes rcfg s.ram bcd s.index with
  | none => none
  | some (_, ram') => some { s with ram := ram' }

/-- `i_Fx65_LD_Vx_I` (src/instructions.rs lines 451-466): read `x+1` bytes
at the index register into `V0..Vx`; with the move-index quirk the index
register then advances by `x`.  `none` is the slice out-of-range abort. -/
def i_Fx65_LD_Vx_I (ccfg : CPUConfig) (rcfg : RAMConfig) (s : CPUState) (x : Nat) :
    Option CPUState :=
  match RAM.read_bytes rcfg s.ram s.index (x + 1) with
  | none => none
  | some (none, ram') => some { s with ram := ram' }
  | some (some bytes, ram') =>
    let s1 := { s with ram := ram', v := set_v_reg_range s.v 0 bytes }
    if ccfg.move_index_with_reads then
      some (increment_index_reg_ref_by ccfg s1 x).2
    else
      some s1

end Instructions

/-! ### Concrete fixtures used by the witnesses and counterexamples -/

def ram0 : RAMState := { active := true, heap := fun _ => 0, stack := fun _ => 0, stack_ptr := 0 }

def ram3 : RAMState := { active := true, heap := fun _ => 0, stack := fun _ => 0, stack_ptr := 3 }

def ramh : RAMState :=
  { active := true, heap := fun a => a % 256, stack := fun _ => 0, stack_ptr := 0 }

def cpu0 : CPUState :=
  { ram := ram0, pc := 0x200, index := 0,
    v := fun r => if r = 0 then 200 else if r = 1 then 100 else 0 }

def cpu5 : CPUState :=
  { ram := ram0, pc := 0x200, index := 0,
    v := fun r => if r = 0xF then 5 else if r = 0 then 1 else if r = 1 then 2 else 0 }

def cpuF : CPUState := { ram := ram0, pc := 0xFFF, index := 0, v := fun _ => 0 }

def ccfg_false : CPUConfig := ⟨false, false, false, false, false, false⟩

def ccfg_true : CPUConfig := ⟨true, true, true, true, true, true⟩

def rcfg_conservative : RAMConfig := ⟨16, false, false⟩

def rcfg_liberal : RAMConfig := ⟨16, true, true⟩

/-! ### List helpers -/

theorem getD_set_ne (l : List Bool) (i j : Nat) (v : Bool) (h : i ≠ j) :
    (l.set i v).getD j false = l.getD j false := by
  simp [List.getD_eq_getElem?_getD, List.getElem?_set_ne h]

theorem getD_set_self (l : List Bool) (i : Nat) (v : Bool) (h : i < l.length) :
    (l.set i v).getD i false = v := by
  simp [List.getD_eq_getElem?_getD, List.getElem?_set_self, h]

theorem list_any_congr (l : List Nat) (f g : Nat → Bool) (h : ∀ x ∈ l, f x = g x) :
    l.any f = l.any g := by
  induction l with
  | nil => rfl
  | cons a t ih =>
    simp only [List.any_cons, h a (by simp)]
    rw [ih (fun x hx => h x (by simp [hx]))]

theorem option_map_getD_eq_true (o : Option Nat) (f : Nat → Bool) :
    ((o.map f).getD false = true) ↔ ∃ p, o = some p ∧ f p = true := by
  cases o <;> simp

theorem mem_ite_toList (c : Prop) [Decidable c] (o : Option Nat) (p : Nat) :
    p ∈ (if c then o.toList else []) ↔ c ∧ o = some p := by
  by_cases h : c <;> cases o <;> simp [h, Option.toList, eq_comm]

theorem option_beq_some_true (b : Bool) : ((some b == some true) : Bool) = b := by
  cases b <;> rfl

theorem option_beq_none_some_true : ((none == some true) : Bool) = false := rfl

namespace GPU

/-! ### The draw path, re-expressed as a fold over the targeted indices -/

theorem draw_pixel_eq (cfg : GPUConfig) (fb : List Bool) (x y : Nat) :
    draw_pixel cfg fb x y =
      match resolve_index cfg x y with
      | none => (fb, none)
      | some p => (fb.set p (!(fb.getD p false)), some (fb.getD p false)) := by
  by_cases hw : cfg.wrap_sprite_pixels
  · simp [draw_pixel, resolve_index, hw]
  · by_cases hb : x ≥ cfg.horizontal_resolution ∨ y ≥ cfg.vertical_resolution <;>
      simp [draw_pixel, resolve_index, hw, hb]

theorem draw_byte_go_eq_foldl (cfg : GPUConfig) (x y : Nat) :
    ∀ (L : List Nat) (byte : Nat) (fb : List Bool) (c : Bool),
      draw_byte_go cfg x y L byte fb c =
        List.foldl draw_step (fb, c) (bit_targets cfg x y L byte) := by
  intro L
  induction L with
  | nil => intro byte fb c; rfl
  | cons i rest ih =>
    intro byte fb c
    rw [draw_byte_go, bit_targets]
    simp only [Nat.and_one_is_mod]
    by_cases hbit : byte % 2 = 1
    · rw [if_pos hbit, if_pos hbit]
      cases hres : resolve_index cfg (x + i) y with
      | none => simp [draw_pixel_eq, hres, option_beq_none_some_true, ih]
      | some p =>
        simp only [draw_pixel_eq, hres, option_beq_some_true, Option.toList,
          List.singleton_append, List.foldl_cons, ih]
        rfl
    · rw [if_neg hbit, if_neg hbit]
      simp [ih]

theorem foldl_draw_step_or (L : List Nat) :
    ∀ (fb : List Bool) (c : Bool),
      List.foldl draw_step (fb, c) L =
        ((List.foldl draw_step (fb, false) L).1,
          c || (List.foldl draw_step (fb, false) L).2) := by
  induction L with
  | nil => intro fb c; simp
  | cons t rest ih =>
    intro fb c
    rw [List.foldl_cons, List.foldl_cons]
    show List.foldl draw_step (fb.set t (!(fb.getD t false)), c || fb.getD t false) rest =
      ((List.foldl draw_step
          (fb.set t (!(fb.getD t false)), false || fb.getD t false) rest).1,
        c || (List.foldl draw_step
          (fb.set t (!(fb.getD t false)), false || fb.getD t false) rest).2)
    rw [ih (fb.set t (!(fb.getD t false))) (c || fb.getD t false),
        ih (fb.set t (!(fb.getD t false))) (false || fb.getD t false)]
    simp [Bool.or_assoc]

theorem draw_rows_eq_foldl (cfg : GPUConfig) :
    ∀ (sprite : List Nat) (fb : List Bool) (x y : Nat),
      draw_rows cfg fb sprite x y =
        List.foldl draw_step (fb, false) (sprite_targets cfg sprite x y) := by
  intro sprite
  induction sprite with
  | nil => intro fb x y; rfl
  | cons b rest ih =>
    intro fb x y
    rw [draw_rows, sprite_targets, List.foldl_append]
    rw [show draw_byte cfg fb b x y =
          draw_byte_go cfg x y ((List.range 8).reverse) b fb false from rfl,
        draw_byte_go_eq_foldl]
    rw [ih]
    conv_rhs =>
      rw [← Prod.mk.eta
        (p := List.foldl draw_step (fb, false) (bit_targets cfg x y ((List.range 8).reverse) b))]
      rw [foldl_draw_step_or (sprite_targets cfg rest x (y + 1))]

theorem foldl_draw_step_length (L : List Nat) :
    ∀ (fb : List Bool) (c : Bool),
      (List.foldl draw_step (fb, c) L).1.length = fb.length := by
  induction L with
  | nil => intro fb c; rfl
  | cons t rest ih =>
    intro fb c
    rw [List.foldl_cons]
    show (List.foldl draw_step (fb.set t _, _) rest).1.length = _
    rw [ih]
    simp

theorem foldl_draw_step_snd (L : List Nat) :
    ∀ (fb : List Bool) (c : Bool), L.Nodup →
      (List.foldl draw_step (fb, c) L).2 = (c || L.any (fun t => fb.getD t false)) := by
  induction L with
  | nil => intro fb c _; simp
  | cons t rest ih =>
    intro fb c hnd
    obtain ⟨hmem, hnd'⟩ := List.nodup_cons.mp hnd
    rw [List.foldl_cons]
    show (List.foldl draw_step (fb.set t _, c || fb.getD t false) rest).2 = _
    rw [ih _ _ hnd']
    rw [list_any_congr rest (fun t' => (fb.set t (!(fb.getD t false))).getD t' false)
          (fun t' => fb.getD t' false)
          (fun t' ht' => getD_set_ne fb t t' _ (fun he => hmem (he ▸ ht')))]
    simp [Bool.or_assoc]

theorem foldl_draw_step_fst (L : List Nat) :
    ∀ (fb : List Bool) (c : Bool) (p : Nat), L.Nodup → (∀ t ∈ L, t < fb.length) →
      (List.foldl draw_step (fb, c) L).1.getD p false =
        if p ∈ L then !(fb.getD p false) else fb.getD p false := by
  induction L with
  | nil => intro fb c p _ _; simp
  | cons t rest ih =>
    intro fb c p hnd hbd
    obtain ⟨hmem, hnd'⟩ := List.nodup_cons.mp hnd
    rw [List.foldl_cons]
    show (List.foldl draw_step (fb.set t (!(fb.getD t false)), c || fb.getD t false)
      rest).1.getD p false = _
    rw [ih _ _ p hnd' (by intro t' ht'; rw [List.length_set]; exact hbd t' (by simp [ht']))]
    by_cases hpt : p = t
    · subst hpt
      have hpr : p ∉ rest := hmem
      simp only [hpr, if_neg, List.mem_cons, true_or, if_pos]
      exact getD_set_self fb p _ (hbd p (by simp))
    · rw [getD_set_ne fb t p _ (fun he => hpt he.symm)]
      by_cases hpr : p ∈ rest <;> simp [hpr, hpt]

/-! ### Which indices a draw targets -/

theorem mem_bit_targets (cfg : GPUConfig) (x y : Nat) :
    ∀ (L : List Nat) (byte : Nat) (p : Nat),
      p ∈ bit_targets cfg x y L byte ↔
        ∃ k, k < L.length ∧ (byte >>> k) % 2 = 1 ∧
          resolve_index cfg (x + L.getD k 0) y = some p := by
  intro L
  induction L with
  | nil => intro byte p; simp [bit_targets]
  | cons i rest ih =>
    intro byte p
    rw [bit_targets, List.mem_append, Chip8.mem_ite_toList, ih]
    constructor
    · rintro (⟨hbit, hres⟩ | ⟨k, hk, hb, hr⟩)
      · exact ⟨0, Nat.succ_pos _, by simpa [Nat.and_one_is_mod] using hbit,
          by simpa using hres⟩
      · refine ⟨k + 1, Nat.succ_lt_succ hk, ?_, by simpa using hr⟩
        have hsh : byte >>> (k + 1) = (byte >>> 1) >>> k := by
          rw [Nat.add_comm k 1, Nat.shiftRight_add]
        rw [hsh]; exact hb
    · rintro ⟨k, hk, hb, hr⟩
      match k with
      | 0 =>
        exact Or.inl ⟨by simpa [Nat.and_one_is_mod] using hb, by simpa using hr⟩
      | k + 1 =>
        refine Or.inr ⟨k, Nat.lt_of_succ_lt_succ hk, ?_, by simpa using hr⟩
        have hsh : byte >>> (k + 1) = (byte >>> 1) >>> k := by
          rw [Nat.add_comm k 1, Nat.shiftRight_add]
        rw [← hsh]; exact hb

theorem mem_row_targets (cfg : GPUConfig) (x y byte p : Nat) :
    p ∈ bit_targets cfg x y ((List.range 8).reverse) byte ↔
      ∃ b, b < 8 ∧ (byte >>> (7 - b)) % 2 = 1 ∧
        resolve_index cfg (x + b) y = some p := by
  rw [mem_bit_targets]
  have hlen : ((List.range 8).reverse).length = 8 := by decide
  have hget : ∀ k, k < 8 → ((List.range 8).reverse).getD k 0 = 7 - k := by decide
  constructor
  · rintro ⟨k, hk, hb, hr⟩
    rw [hlen] at hk
    refine ⟨7 - k, by omega, ?_, ?_⟩
    · rw [show 7 - (7 - k) = k by omega]; exact hb
    · rw [← hget k hk]; exact hr
  · rintro ⟨b, hb8, hbit, hres⟩
    refine ⟨7 - b, by rw [hlen]; omega, hbit, ?_⟩
    rw [hget (7 - b) (by omega), show 7 - (7 - b) = b by omega]
    exact hres

theorem mem_sprite_targets (cfg : GPUConfig) :
    ∀ (sprite : List Nat) (x y p : Nat),
      p ∈ sprite_targets cfg sprite x y ↔
        ∃ i, i < sprite.length ∧ ∃ b, b < 8 ∧
          ((sprite.getD i 0) >>> (7 - b)) % 2 = 1 ∧
          resolve_index cfg (x + b) (y + i) = some p := by
  intro sprite
  induction sprite with
  | nil => intro x y p; simp [sprite_targets]
  | cons byte rest ih =>
    intro x y p
    rw [sprite_targets, List.mem_append, mem_row_targets, ih]
    constructor
    · rintro (⟨b, hb, hbit, hres⟩ | ⟨i, hi, b, hb, hbit, hres⟩)
      · exact ⟨0, Nat.succ_pos _, b, hb, by simpa using hbit, by simpa using hres⟩
      · exact ⟨i + 1, Nat.succ_lt_succ hi, b, hb, by simpa using hbit,
          by rw [show y + (i + 1) = y + 1 + i by omega]; exact hres⟩
    · rintro ⟨i, hi, b, hb, hbit, hres⟩
      match i with
      | 0 => exact Or.inl ⟨b, hb, by simpa using hbit, by simpa using hres⟩
      | i + 1 =>
        exact Or.inr ⟨i, Nat.lt_of_succ_lt_succ hi, b, hb, by simpa using hbit,
          by rw [show y + 1 + i = y + (i + 1) by omega]; exact hres⟩

theorem index_lt {a b W H : Nat} (ha : a < W) (hb : b < H) : b * W + a < W * H := by
  have h1 : (b + 1) * W ≤ H * W := Nat.mul_le_mul_right W hb
  have h2 : b * W + W = (b + 1) * W := by ring
  have h3 : W * H = H * W := by ring
  omega

theorem resolve_index_lt (cfg : GPUConfig) (hW : 0 < cfg.horizontal_resolution)
    (hH : 0 < cfg.vertical_resolution) {x y p : Nat}
    (h : resolve_index cfg x y = some p) :
    p < cfg.horizontal_resolution * cfg.vertical_resolution := by
  unfold resolve_index at h
  split_ifs at h with h1 h2
  · obtain rfl : _ = p := Option.some.inj h
    exact index_lt (Nat.mod_lt _ hW) (Nat.mod_lt _ hH)
  · obtain rfl : _ = p := Option.some.inj h
    push_neg at h2
    exact index_lt h2.1 h2.2

theorem sprite_targets_lt (cfg : GPUConfig) (hW : 0 < cfg.horizontal_resolution)
    (hH : 0 < cfg.vertical_resolution) (sprite : List Nat) (x y : Nat) :
    ∀ t ∈ sprite_targets cfg sprite x y,
      t < cfg.horizontal_resolution * cfg.vertical_resolution := by
  intro t ht
  obtain ⟨i, _, b, _, _, hres⟩ := (mem_sprite_targets cfg sprite x y t).mp ht
  exact resolve_index_lt cfg hW hH hres

/-! ### Bridging the fold result to the formulas of the specification -/

theorem sprite_covers_iff_mem (cfg : GPUConfig) (sprite : List Nat) (x y p : Nat) :
    sprite_covers cfg sprite x y p = true ↔ p ∈ sprite_targets cfg sprite x y := by
  simp only [sprite_covers, List.any_eq_true, List.mem_range, Bool.and_eq_true, beq_iff_eq]
  rw [mem_sprite_targets]

theorem spec_collision_iff (cfg : GPUConfig) (fb : List Bool) (sprite : List Nat)
    (x y : Nat) :
    spec_collision cfg fb sprite x y = true ↔
      ∃ p ∈ sprite_targets cfg sprite x y, fb.getD p false = true := by
  simp only [spec_collision, List.any_eq_true, List.mem_range, Bool.and_eq_true, beq_iff_eq,
    Chip8.option_map_getD_eq_true]
  constructor
  · rintro ⟨i, hi, b, hb, hbit, q, hres, hq⟩
    exact ⟨q, (mem_sprite_targets cfg sprite x y q).mpr ⟨i, hi, b, hb, hbit, hres⟩, hq⟩
  · rintro ⟨q, hq, hfb⟩
    obtain ⟨i, hi, b, hb, hbit, hres⟩ := (mem_sprite_targets cfg sprite x y q).mp hq
    exact ⟨i, hi, b, hb, hbit, q, hres, hfb⟩

theorem draw_sprite_eq_rows (cfg : GPUConfig) (fb : List Bool) (sprite : List Nat)
    (x y : Nat)
    (hpos : cfg.wrap_sprite_positions = true ∨
      (x < cfg.horizontal_resolution ∧ y < cfg.vertical_resolution)) :
    draw_sprite cfg fb sprite x y =
      draw_rows cfg fb sprite (effective_x cfg x) (effective_y cfg y) := by
  by_cases hw : cfg.wrap_sprite_positions
  · simp [draw_sprite, effective_x, effective_y, hw]
  · rcases hpos with hw' | ⟨hx, hy⟩
    · exact absurd hw' (by simpa using hw)
    · simp [draw_sprite, effective_x, effective_y, hw, Nat.not_le.mpr hx, Nat.not_le.mpr hy]

end GPU

/-! ### Claim C1 -/

/-- Claim C1 as stated is false: with pixel wrapping enabled two lit sprite
bits can resolve to the same framebuffer pixel (here an 8×1 screen and the
two-row sprite `[0x80, 0x80]`, both rows landing on pixel 0).  The draw
reports a collision even though no lit sprite bit had its resolved target
pixel lit before the draw. -/
theorem C1_counterexample :
    (GPU.draw_sprite ⟨8, 1, true, true⟩ (List.replicate 8 false) [0x80, 0x80] 0 0).2 = true ∧
      GPU.spec_collision ⟨8, 1, true, true⟩ (List.replicate 8 false) [0x80, 0x80]
        (GPU.effective_x ⟨8, 1, true, true⟩ 0) (GPU.effective_y ⟨8, 1, true, true⟩ 0) =
        false := by
  decide

/-- Claim C1 (amended): provided no two lit sprite bits resolve to the same
target pixel, the collision flag of `draw_sprite` is true iff some lit
lit sprite bit has a resolved target pixel that was lit before the draw, and the
framebuffer after the draw is the framebuffer before XOR-ed with the sprite
bits at their resolved positions (wrapping modulo (W,H) when
`wrap_sprite_pixels` is set, discarded when out of range otherwise). -/
theorem C1_draw_sprite_spec (cfg : GPUConfig) (fb : List Bool)
    (sprite : List Nat) (x_pos y_pos : Nat)
    (hW : 0 < cfg.horizontal_resolution) (hH : 0 < cfg.vertical_resolution)
    (hlen : fb.length = cfg.horizontal_resolution * cfg.vertical_resolution)
    (hpos : cfg.wrap_sprite_positions = true ∨
      (x_pos < cfg.horizontal_resolution ∧ y_pos < cfg.vertical_resolution))
    (hinj : (GPU.sprite_targets cfg sprite (GPU.effective_x cfg x_pos)
        (GPU.effective_y cfg y_pos)).Nodup) :
    (GPU.draw_sprite cfg fb sprite x_pos y_pos).2 =
        GPU.spec_collision cfg fb sprite (GPU.effective_x cfg x_pos)
          (GPU.effective_y cfg y_pos) ∧
      ∀ p, (GPU.draw_sprite cfg fb sprite x_pos y_pos).1.getD p false =
        xor (fb.getD p false)
          (GPU.sprite_covers cfg sprite (GPU.effective_x cfg x_pos)
            (GPU.effective_y cfg y_pos) p) := by
  rw [GPU.draw_sprite_eq_rows cfg fb sprite x_pos y_pos hpos, GPU.draw_rows_eq_foldl]
  have hbound : ∀ t ∈ GPU.sprite_targets cfg sprite (GPU.effective_x cfg x_pos)
      (GPU.effective_y cfg y_pos), t < fb.length := by
    rw [hlen]
    exact GPU.sprite_targets_lt cfg hW hH sprite _ _
  constructor
  · rw [GPU.foldl_draw_step_snd _ fb false hinj, Bool.false_or]
    rw [Bool.eq_iff_iff, List.any_eq_true, GPU.spec_collision_iff]
  · intro p
    rw [GPU.foldl_draw_step_fst _ fb false p hinj hbound]
    by_cases hp : p ∈ GPU.sprite_targets cfg sprite (GPU.effective_x cfg x_pos)
        (GPU.effective_y cfg y_pos)
    · rw [if_pos hp, (GPU.sprite_covers_iff_mem cfg sprite _ _ p).mpr hp,
        Bool.xor_true]
    · rw [if_neg hp]
      have hcov : GPU.sprite_covers cfg sprite (GPU.effective_x cfg x_pos)
          (GPU.effective_y cfg y_pos) p = false := by
        cases hc : GPU.sprite_covers cfg sprite (GPU.effective_x cfg x_pos)
            (GPU.effective_y cfg y_pos) p
        · rfl
        · exact absurd ((GPU.sprite_covers_iff_mem cfg sprite _ _ p).mp hc) hp
      rw [hcov, Bool.xor_false]

/-- Witness for C1: a concrete draw of the sprite `[0xA5]` at (0, 1) on an
8×4 wrapped screen, with all hypotheses checked by evaluation and the
conclusion instantiated through the theorem. -/
theorem C1_draw_sprite_spec_witness :
    (0 < (8 : Nat)) ∧ (0 < (4 : Nat)) ∧
      (List.replicate 32 false : List Bool).length = 8 * 4 ∧
      (GPU.sprite_targets ⟨8, 4, true, true⟩ [0xA5] (GPU.effective_x ⟨8, 4, true, true⟩ 0)
        (GPU.effective_y ⟨8, 4, true, true⟩ 1)).Nodup ∧
      (GPU.draw_sprite ⟨8, 4, true, true⟩ (List.replicate 32 false) [0xA5] 0 1).2 =
        GPU.spec_collision ⟨8, 4, true, true⟩ (List.replicate 32 false) [0xA5]
          (GPU.effective_x ⟨8, 4, true, true⟩ 0) (GPU.effective_y ⟨8, 4, true, true⟩ 1) ∧
      (GPU.draw_sprite ⟨8, 4, true, true⟩ (List.replicate 32 false) [0xA5] 0 1).1.getD 10
          false =
        xor ((List.replicate 32 false : List Bool).getD 10 false)
          (GPU.sprite_covers ⟨8, 4, true, true⟩ [0xA5] (GPU.effective_x ⟨8, 4, true, true⟩ 0)
            (GPU.effective_y ⟨8, 4, true, true⟩ 1) 10) :=
  ⟨by decide, by decide, by decide, by decide,
    (C1_draw_sprite_spec ⟨8, 4, true, true⟩ (List.replicate 32 false) [0xA5] 0 1
      (by decide) (by decide) (by decide) (Or.inl rfl) (by decide)).1,
    (C1_draw_sprite_spec ⟨8, 4, true, true⟩ (List.replicate 32 false) [0xA5] 0 1
      (by decide) (by decide) (by decide) (Or.inl rfl) (by decide)).2 10⟩

/-! ### Claim C7 -/

/-- Claim C7 as stated is false: with `wrap_sprite_positions` disabled, a
draw starting at x = W (= 8 here) is discarded entirely, while drawing at
the wrapped position (0, 0) would have changed the framebuffer. -/
theorem C7_counterexample :
    GPU.draw_sprite ⟨8, 4, false, false⟩ (List.replicate 32 false) [0xFF] 8 0 =
        (List.replicate 32 false, false) ∧
      (GPU.draw_sprite ⟨8, 4, false, false⟩ (List.replicate 32 false) [0xFF]
          (8 % 8) (0 % 4)).1 ≠ List.replicate 32 false := by
  decide

/-- Claim C7 (amended): the starting position is reduced modulo (W, H) only
when `wrap_sprite_positions` is set; with the flag clear, a draw whose
starting coordinates lie outside the screen is discarded — it returns no
collision and leaves the framebuffer unchanged. -/
theorem C7_starting_position (cfg : GPUConfig) (fb : List Bool) (sprite : List Nat)
    (x_pos y_pos : Nat) :
    (cfg.wrap_sprite_positions = true →
      GPU.draw_sprite cfg fb sprite x_pos y_pos =
        GPU.draw_sprite cfg fb sprite (x_pos % cfg.horizontal_resolution)
          (y_pos % cfg.vertical_resolution)) ∧
    (cfg.wrap_sprite_positions = false →
      (x_pos ≥ cfg.horizontal_resolution ∨ y_pos ≥ cfg.vertical_resolution) →
      GPU.draw_sprite cfg fb sprite x_pos y_pos = (fb, false)) := by
  constructor
  · intro hw
    simp [GPU.draw_sprite, hw, Nat.mod_mod_of_dvd]
  · intro hw hout
    simp [GPU.draw_sprite, hw, hout]

/-- Witness for C7: drawing at (9, 5) on a wrapped 8×4 screen equals
drawing at (1, 1). -/
theorem C7_starting_position_witness :
    (⟨8, 4, true, true⟩ : GPUConfig).wrap_sprite_positions = true ∧
      GPU.draw_sprite ⟨8, 4, true, true⟩ (List.replicate 32 false) [0xFF] 9 5 =
        GPU.draw_sprite ⟨8, 4, true, true⟩ (List.replicate 32 false) [0xFF] (9 % 8) (5 % 4) :=
  ⟨rfl, (C7_starting_position ⟨8, 4, true, true⟩ (List.replicate 32 false) [0xFF] 9 5).1 rfl⟩

/-! ### Claim C2 -/

/-- Claim C2: `8xy4` sets Vx to the wrapping 8-bit sum and then VF to the
carry; `8xy5` sets Vx to Vx − Vy mod 256 and then VF to 1 iff Vx ≥ Vy;
`8xy7` sets Vx to Vy − Vx mod 256 and then VF to 1 iff Vy ≥ Vx.  The VF
write happens after the Vx write, so for x = 0xF the flag is the final
value (the VF conclusions below hold with no restriction on x). -/
theorem C2_arith_flags (ccfg : CPUConfig) (s : CPUState) (x y : Nat)
    (hx : x < 16) (hy : y < 16) (hvx : s.v x < 256) (hvy : s.v y < 256) :
    ((x ≠ 0xF → (Instructions.i_8xy4_ADD_Vx_Vy ccfg s x y).v x = (s.v x + s.v y) % 256) ∧
      (Instructions.i_8xy4_ADD_Vx_Vy ccfg s x y).v 0xF =
        (if s.v x + s.v y ≥ 256 then 1 else 0)) ∧
    ((x ≠ 0xF → ((Instructions.i_8xy5_SUB_Vx_Vy ccfg s x y).v x : Int) =
        ((s.v x : Int) - (s.v y : Int)) % 256) ∧
      (Instructions.i_8xy5_SUB_Vx_Vy ccfg s x y).v 0xF =
        (if s.v y ≤ s.v x then 1 else 0)) ∧
    ((x ≠ 0xF → ((Instructions.i_8xy7_SUBN_Vx_Vy ccfg s x y).v x : Int) =
        ((s.v y : Int) - (s.v x : Int)) % 256) ∧
      (Instructions.i_8xy7_SUBN_Vx_Vy ccfg s x y).v 0xF =
        (if s.v x ≤ s.v y then 1 else 0)) := by
  refine ⟨⟨?_, ?_⟩, ⟨?_, ?_⟩, ⟨?_, ?_⟩⟩
  · intro hxf
    simp [Instructions.i_8xy4_ADD_Vx_Vy, CPU.set_reg, hxf]
  · simp [Instructions.i_8xy4_ADD_Vx_Vy, CPU.set_reg]
  · intro hxf
    simp [Instructions.i_8xy5_SUB_Vx_Vy, CPU.set_reg, hxf]
    omega
  · simp [Instructions.i_8xy5_SUB_Vx_Vy, CPU.set_reg]
    split_ifs <;> omega
  · intro hxf
    simp [Instructions.i_8xy7_SUBN_Vx_Vy, CPU.set_reg, hxf]
    omega
  · simp [Instructions.i_8xy7_SUBN_Vx_Vy, CPU.set_reg]
    split_ifs <;> omega

/-- Witness for C2: V0 = 200, V1 = 100, so `8014` leaves V0 = 44 and
VF = 1. -/
theorem C2_arith_flags_witness :
    (0 : Nat) < 16 ∧ (1 : Nat) < 16 ∧ cpu0.v 0 < 256 ∧ cpu0.v 1 < 256 ∧
      (Instructions.i_8xy4_ADD_Vx_Vy ccfg_false cpu0 0 1).v 0 = (cpu0.v 0 + cpu0.v 1) % 256 ∧
      (Instructions.i_8xy4_ADD_Vx_Vy ccfg_false cpu0 0 1).v 0xF =
        (if cpu0.v 0 + cpu0.v 1 ≥ 256 then 1 else 0) :=
  ⟨by decide, by decide, by decide, by decide,
    (C2_arith_flags ccfg_false cpu0 0 1 (by decide) (by decide) (by decide)
      (by decide)).1.1 (by decide),
    (C2_arith_flags ccfg_false cpu0 0 1 (by decide) (by decide) (by decide)
      (by decide)).1.2⟩

/-! ### Claim C5 -/

/-- Claim C5: `8xy6` and `8xyE` shift the quirk-selected source (Vx when
`use_new_shift_instruction` is on, Vy otherwise) into Vx and then write the
shifted-out bit into VF; the VF conclusions hold with no restriction on x
because VF is written after Vx. -/
theorem C5_shift_quirk (ccfg : CPUConfig) (s : CPUState) (x y : Nat) :
    ((x ≠ 0xF → (Instructions.i_8xy6_SHR_Vx ccfg s x y).v x =
        (if ccfg.use_new_shift_instruction then s.v x else s.v y) >>> 1) ∧
      (Instructions.i_8xy6_SHR_Vx ccfg s x y).v 0xF =
        (if ccfg.use_new_shift_instruction then s.v x else s.v y) &&& 1) ∧
    ((x ≠ 0xF → (Instructions.i_8xyE_SHL_Vx ccfg s x y).v x =
        (((if ccfg.use_new_shift_instruction then s.v x else s.v y) <<< 1) % 256)) ∧
      (Instructions.i_8xyE_SHL_Vx ccfg s x y).v 0xF =
        ((if ccfg.use_new_shift_instruction then s.v x else s.v y) &&& 0x80) >>> 7) := by
  refine ⟨⟨?_, ?_⟩, ⟨?_, ?_⟩⟩
  · intro hxf
    simp [Instructions.i_8xy6_SHR_Vx, CPU.set_reg, hxf]
  · simp [Instructions.i_8xy6_SHR_Vx, CPU.set_reg]
  · intro hxf
    simp [Instructions.i_8xyE_SHL_Vx, CPU.set_reg, hxf]
  · simp [Instructions.i_8xyE_SHL_Vx, CPU.set_reg]

/-- Witness for C5: with the quirk off, `8016` shifts V1 = 100 giving
V0 = 50 and VF = 0. -/
theorem C5_shift_quirk_witness :
    ((0 : Nat) ≠ 0xF) ∧
      (Instructions.i_8xy6_SHR_Vx ccfg_false cpu0 0 1).v 0 =
        (if ccfg_false.use_new_shift_instruction then cpu0.v 0 else cpu0.v 1) >>> 1 ∧
      (Instructions.i_8xy6_SHR_Vx ccfg_false cpu0 0 1).v 0xF =
        (if ccfg_false.use_new_shift_instruction then cpu0.v 0 else cpu0.v 1) &&& 1 :=
  ⟨by decide,
    (C5_shift_quirk ccfg_false cpu0 0 1).1.1 (by decide),
    (C5_shift_quirk ccfg_false cpu0 0 1).1.2⟩

/-! ### Claim C8 -/

/-- Claim C8 as stated is false: the code has no
`reset_flag_for_bitwise_operations` quirk — `CPUConfig` (src/config.rs and
the constructors in src/cpu.rs) has no such field, and `8xy1`/`8xy2`/`8xy3`
never touch VF.  Concretely, with VF = 5, executing OR V0,V1 leaves VF = 5
under both the all-flags-false and the all-flags-true configuration, so no
configuration makes these instructions reset VF to 0. -/
theorem C8_counterexample :
    (Instructions.i_8xy1_OR_Vx_Vy ccfg_true cpu5 0 1).v 0xF = 5 ∧
      (Instructions.i_8xy1_OR_Vx_Vy ccfg_false cpu5 0 1).v 0xF = 5 ∧
      (Instructions.i_8xy2_AND_Vx_Vy ccfg_true cpu5 0 1).v 0xF = 5 ∧
      (Instructions.i_8xy3_XOR_Vx_Vy ccfg_true cpu5 0 1).v 0xF = 5 := by
  decide

/-- Claim C8 (amended): there is no reset-VF quirk; under every
configuration, `8xy1`/`8xy2`/`8xy3` write the bitwise result of Vx and Vy
into Vx and leave VF unchanged (whenever VF is not itself the
destination). -/
theorem C8_bitwise_leave_flag (ccfg : CPUConfig) (s : CPUState) (x y : Nat)
    (hx : x ≠ 0xF) :
    (Instructions.i_8xy1_OR_Vx_Vy ccfg s x y).v 0xF = s.v 0xF ∧
      (Instructions.i_8xy2_AND_Vx_Vy ccfg s x y).v 0xF = s.v 0xF ∧
      (Instructions.i_8xy3_XOR_Vx_Vy ccfg s x y).v 0xF = s.v 0xF ∧
      (Instructions.i_8xy1_OR_Vx_Vy ccfg s x y).v x = s.v x ||| s.v y ∧
      (Instructions.i_8xy2_AND_Vx_Vy ccfg s x y).v x = s.v x &&& s.v y ∧
      (Instructions.i_8xy3_XOR_Vx_Vy ccfg s x y).v x = s.v x ^^^ s.v y := by
  have hfx : (0xF : Nat) ≠ x := fun h => hx h.symm
  refine ⟨?_, ?_, ?_, ?_, ?_, ?_⟩ <;>
    simp [Instructions.i_8xy1_OR_Vx_Vy, Instructions.i_8xy2_AND_Vx_Vy,
      Instructions.i_8xy3_XOR_Vx_Vy, CPU.set_reg, hfx]

/-- Witness for C8: OR V0,V1 on V0 = 1, V1 = 2, VF = 5 leaves VF = 5 and
sets V0 = 3. -/
theorem C8_bitwise_leave_flag_witness :
    ((0 : Nat) ≠ 0xF) ∧
      (Instructions.i_8xy1_OR_Vx_Vy ccfg_false cpu5 0 1).v 0xF = cpu5.v 0xF ∧
      (Instructions.i_8xy1_OR_Vx_Vy ccfg_false cpu5 0 1).v 0 = cpu5.v 0 ||| cpu5.v 1 :=
  ⟨by decide,
    (C8_bitwise_leave_flag ccfg_false cpu5 0 1 (by decide)).1,
    (C8_bitwise_leave_flag ccfg_false cpu5 0 1 (by decide)).2.2.2.1⟩

/-! ### Claim C4 -/

/-- Claim C4: the four push/pop behaviours of the stack, and the pointer
staying within `[0, stack_size]`.  The `0 < stack_size` hypothesis is
guaranteed by `RAM::try_new`, which rejects a zero stack size. -/
theorem C4_stack_push_pop (cfg : RAMConfig) (s : RAMState) (v : Nat)
    (hsize : 0 < cfg.stack_size) (hptr : s.stack_ptr ≤ cfg.stack_size) :
    (s.stack_ptr < cfg.stack_size →
      RAM.push_to_stack cfg s v =
        (true, { s with stack := fun i => if i = s.stack_ptr then v else s.stack i,
                        stack_ptr := s.stack_ptr + 1 })) ∧
    (s.stack_ptr = cfg.stack_size → cfg.allow_stack_overflow = true →
      RAM.push_to_stack cfg s v =
        (true, { s with stack := fun i => if i = 0 then v else s.stack i,
                        stack_ptr := 1 })) ∧
    (s.stack_ptr = cfg.stack_size → cfg.allow_stack_overflow = false →
      RAM.push_to_stack cfg s v = (false, { s with active := false })) ∧
    (0 < s.stack_ptr →
      RAM.pop_from_stack cfg s =
        (some (s.stack (s.stack_ptr - 1)), { s with stack_ptr := s.stack_ptr - 1 })) ∧
    (s.stack_ptr = 0 → cfg.allow_stack_overflow = true →
      RAM.pop_from_stack cfg s =
        (some (s.stack (cfg.stack_size - 1)), { s with stack_ptr := cfg.stack_size - 1 })) ∧
    (s.stack_ptr = 0 → cfg.allow_stack_overflow = false →
      RAM.pop_from_stack cfg s = (none, { s with active := false })) ∧
    (RAM.push_to_stack cfg s v).2.stack_ptr ≤ cfg.stack_size ∧
    (RAM.pop_from_stack cfg s).2.stack_ptr ≤ cfg.stack_size := by
  refine ⟨?_, ?_, ?_, ?_, ?_, ?_, ?_, ?_⟩
  · intro h; simp [RAM.push_to_stack, Nat.ne_of_lt h]
  · intro h ha; simp [RAM.push_to_stack, h, ha]
  · intro h ha; simp [RAM.push_to_stack, h, ha]
  · intro h; simp [RAM.pop_from_stack, Nat.pos_iff_ne_zero.mp h]
  · intro h ha; simp [RAM.pop_from_stack, h, ha]
  · intro h ha; simp [RAM.pop_from_stack, h, ha]
  · by_cases hpe : s.stack_ptr = cfg.stack_size
    · by_cases hao : cfg.allow_stack_overflow <;>
        simp [RAM.push_to_stack, hpe, hao] <;> omega
    · simp [RAM.push_to_stack, hpe]; omega
  · by_cases hpe : s.stack_ptr = 0
    · by_cases hao : cfg.allow_stack_overflow <;>
        simp [RAM.pop_from_stack, hpe, hao] <;> omega
    · simp [RAM.pop_from_stack, hpe]; omega

/-- Witness for C4: pushing onto a 16-slot stack with pointer 3 stores at
slot 3 and moves the pointer to 4. -/
theorem C4_stack_push_pop_witness :
    0 < rcfg_conservative.stack_size ∧ ram3.stack_ptr ≤ rcfg_conservative.stack_size ∧
      ram3.stack_ptr < rcfg_conservative.stack_size ∧
      RAM.push_to_stack rcfg_conservative ram3 7 =
        (true, { ram3 with stack := fun i => if i = ram3.stack_ptr then 7 else ram3.stack i,
                           stack_ptr := ram3.stack_ptr + 1 }) ∧
      (RAM.push_to_stack rcfg_conservative ram3 7).2.stack_ptr ≤ rcfg_conservative.stack_size :=
  ⟨by decide, by decide, by decide,
    (C4_stack_push_pop rcfg_conservative ram3 7 (by decide) (by decide)).1 (by decide),
    (C4_stack_push_pop rcfg_conservative ram3 7 (by decide) (by decide)).2.2.2.2.2.2.1⟩

/-! ### Claim C10 -/

/-- Claim C10: a heap or stack operation that fails under a disallow policy
has no partial effect — the heap, the stack and the stack pointer are
untouched, the failure value is returned, and the only change is
`active := false`. -/
theorem C10_failed_ops_atomic (cfg : RAMConfig) (s : RAMState) (addr count val : Nat)
    (vals : List Nat)
    (hheap : cfg.allow_heap_overflow = false) (hstack : cfg.allow_stack_overflow = false) :
    (addr + count > 0x1000 →
      (RAM.read_bytes cfg s addr count).map
          (fun r => (r.1, r.2.heap, r.2.stack, r.2.stack_ptr, r.2.active)) =
        some (none, s.heap, s.stack, s.stack_ptr, false)) ∧
    (addr + vals.length > 0x1000 →
      (RAM.write_bytes cfg s vals addr).map
          (fun r => (r.1, r.2.heap, r.2.stack, r.2.stack_ptr, r.2.active)) =
        some (false, s.heap, s.stack, s.stack_ptr, false)) ∧
    (s.stack_ptr = cfg.stack_size →
      ((RAM.push_to_stack cfg s val).1, (RAM.push_to_stack cfg s val).2.heap,
        (RAM.push_to_stack cfg s val).2.stack, (RAM.push_to_stack cfg s val).2.stack_ptr,
        (RAM.push_to_stack cfg s val).2.active) =
        (false, s.heap, s.stack, s.stack_ptr, false)) ∧
    (s.stack_ptr = 0 →
      ((RAM.pop_from_stack cfg s).1, (RAM.pop_from_stack cfg s).2.heap,
        (RAM.pop_from_stack cfg s).2.stack, (RAM.pop_from_stack cfg s).2.stack_ptr,
        (RAM.pop_from_stack cfg s).2.active) =
        (none, s.heap, s.stack, s.stack_ptr, false)) := by
  refine ⟨?_, ?_, ?_, ?_⟩
  · intro h; simp [RAM.read_bytes, HEAP_SIZE, h, hheap]
  · intro h; simp [RAM.write_bytes, HEAP_SIZE, h, hheap]
  · intro h; simp [RAM.push_to_stack, h, hstack]
  · intro h; simp [RAM.pop_from_stack, h, hstack]

/-- Witness for C10: a two-byte read at 0xFFF with overflow disallowed
fails and only clears `active`. -/
theorem C10_failed_ops_atomic_witness :
    rcfg_conservative.allow_heap_overflow = false ∧
      rcfg_conservative.allow_stack_overflow = false ∧
      (0xFFF + 2 > 0x1000) ∧
      (RAM.read_bytes rcfg_conservative ram3 0xFFF 2).map
          (fun r => (r.1, r.2.heap, r.2.stack, r.2.stack_ptr, r.2.active)) =
        some (none, ram3.heap, ram3.stack, ram3.stack_ptr, false) :=
  ⟨rfl, rfl, by decide,
    (C10_failed_ops_atomic rcfg_conservative ram3 0xFFF 2 0 [] rfl rfl).1 (by decide)⟩

/-! ### Claim C3 -/

/-- Claim C3 as stated is false for very large counts: a wrapped read of
0x1002 bytes starting at 0xFFF would need a suffix of 0x1001 bytes from
address 0, and the slice `heap[..count_post_split]` is out of range — the
operation aborts instead of returning the wrapped bytes the claim
promises. -/
theorem C3_counterexample :
    (RAM.read_bytes rcfg_liberal ram3 0xFFF 0x1002).isNone = true := by decide

/-- Claim C3 (amended): for `addr ≤ 0xFFF` and counts at most 0x1000 (all
counts the emulator issues), `read_bytes`/`write_bytes` behave exactly as
claimed: in-range accesses read/store the bytes at `addr`, wrapped accesses
with `allow_heap_overflow` split at 0x1000 and continue at address 0 (byte
`j` lands at `(addr + j) % 0x1000`), and disallowed overflows fail,
returning `none`/`false` and clearing `active`.  Counts above 0x1000 are
excluded: there the wrap-around slicing aborts (see the counterexample). -/
theorem C3_heap_read_write (cfg : RAMConfig) (s : RAMState) (addr count j a : Nat)
    (vals : List Nat)
    (haddr : addr ≤ 0xFFF) (hcount : count ≤ 0x1000) (hvals : vals.length ≤ 0x1000) :
    (addr + count ≤ 0x1000 →
      RAM.read_bytes cfg s addr count =
        some (some ((List.range count).map (fun j => s.heap (addr + j))), s)) ∧
    (addr + count > 0x1000 → cfg.allow_heap_overflow = true →
      RAM.read_bytes cfg s addr count =
        some (some ((List.range (0x1000 - addr)).map (fun j => s.heap (addr + j)) ++
          (List.range (count - (0x1000 - addr))).map (fun j => s.heap j)), s)) ∧
    (addr + count > 0x1000 → cfg.allow_heap_overflow = false →
      (RAM.read_bytes cfg s addr count).map (fun r => (r.1, r.2.active, r.2.heap)) =
        some (none, false, s.heap)) ∧
    (addr + vals.length ≤ 0x1000 → j < vals.length →
      (RAM.write_bytes cfg s vals addr).map (fun r => (r.1, r.2.heap (addr + j))) =
        some (true, vals.getD j 0)) ∧
    (addr + vals.length ≤ 0x1000 → (a < addr ∨ addr + vals.length ≤ a) →
      (RAM.write_bytes cfg s vals addr).map (fun r => r.2.heap a) = some (s.heap a)) ∧
    (addr + vals.length > 0x1000 → cfg.allow_heap_overflow = true → j < vals.length →
      (RAM.write_bytes cfg s vals addr).map
          (fun r => (r.1, r.2.heap ((addr + j) % 0x1000))) =
        some (true, vals.getD j 0)) ∧
    (addr + vals.length > 0x1000 → cfg.allow_heap_overflow = false →
      (RAM.write_bytes cfg s vals addr).map (fun r => (r.1, r.2.active, r.2.heap)) =
        some (false, false, s.heap)) := by
  refine ⟨?_, ?_, ?_, ?_, ?_, ?_, ?_⟩
  · intro h
    have hnot : ¬ ((4096 : Nat) < addr + count) := by omega
    simp [RAM.read_bytes, HEAP_SIZE, hnot]
  · intro h ha
    have hout : (4096 : Nat) < addr + count := by omega
    have hguard : ¬ ((4096 : Nat) < addr ∨ 4096 < count - (4096 - addr)) := by omega
    simp [RAM.read_bytes, HEAP_SIZE, hout, ha, hguard]
  · intro h ha
    have hout : (4096 : Nat) < addr + count := by omega
    simp [RAM.read_bytes, HEAP_SIZE, hout, ha]
  · intro h hj
    have hnot : ¬ ((4096 : Nat) < addr + vals.length) := by omega
    simp only [RAM.write_bytes, HEAP_SIZE, hnot, if_false, Option.map_some]
    refine congrArg some (Prod.ext rfl ?_)
    show (if addr ≤ addr + j ∧ addr + j < addr + vals.length then
        vals.getD (addr + j - addr) 0 else s.heap (addr + j)) = vals.getD j 0
    rw [if_pos ⟨by omega, by omega⟩, show addr + j - addr = j by omega]
  · intro h hres
    have hnot : ¬ ((4096 : Nat) < addr + vals.length) := by omega
    simp only [RAM.write_bytes, HEAP_SIZE, hnot, if_false, Option.map_some]
    refine congrArg some ?_
    show (if addr ≤ a ∧ a < addr + vals.length then vals.getD (a - addr) 0
        else s.heap a) = s.heap a
    rw [if_neg (by omega)]
  · intro h ha hj
    have hout : (4096 : Nat) < addr + vals.length := by omega
    have hguard : ¬ ((4096 : Nat) < addr ∨ 4096 < vals.length - (4096 - addr)) := by omega
    simp only [RAM.write_bytes, HEAP_SIZE, hout, if_true, ha, Bool.true_eq_false,
      if_false, hguard, Option.map_some]
    refine congrArg some (Prod.ext rfl ?_)
    by_cases hcase : j < 4096 - addr
    · have hmod : (addr + j) % 0x1000 = addr + j := Nat.mod_eq_of_lt (by omega)
      show (if (addr + j) % 0x1000 < vals.length - (4096 - addr) then
          vals.getD (4096 - addr + (addr + j) % 0x1000) 0
        else if addr ≤ (addr + j) % 0x1000 ∧ (addr + j) % 0x1000 < 4096 then
          vals.getD ((addr + j) % 0x1000 - addr) 0
        else s.heap ((addr + j) % 0x1000)) = vals.getD j 0
      rw [hmod, if_neg (by omega), if_pos ⟨by omega, by omega⟩,
        show addr + j - addr = j by omega]
    · have hmod : (addr + j) % 0x1000 = addr + j - 0x1000 := by omega
      show (if (addr + j) % 0x1000 < vals.length - (4096 - addr) then
          vals.getD (4096 - addr + (addr + j) % 0x1000) 0
        else if addr ≤ (addr + j) % 0x1000 ∧ (addr + j) % 0x1000 < 4096 then
          vals.getD ((addr + j) % 0x1000 - addr) 0
        else s.heap ((addr + j) % 0x1000)) = vals.getD j 0
      rw [hmod, if_pos (by omega), show 4096 - addr + (addr + j - 0x1000) = j by omega]
  · intro h ha
    have hout : (4096 : Nat) < addr + vals.length := by omega
    simp [RAM.write_bytes, HEAP_SIZE, hout, ha]

/-- Witness for C3: a wrapped 5-byte read at 0xFFD returns the three bytes
at the top of memory followed by the two at 0, and a wrapped 5-byte write
at 0xFFD places byte 4 at address 1. -/
theorem C3_heap_read_write_witness :
    (0xFFD : Nat) ≤ 0xFFF ∧ (5 : Nat) ≤ 0x1000 ∧
      ([11, 22, 33, 44, 55] : List Nat).length ≤ 0x1000 ∧
      (0xFFD + 5 > 0x1000) ∧ rcfg_liberal.allow_heap_overflow = true ∧ (4 : Nat) < 5 ∧
      RAM.read_bytes rcfg_liberal ramh 0xFFD 5 =
        some (some ((List.range (0x1000 - 0xFFD)).map (fun j => ramh.heap (0xFFD + j)) ++
          (List.range (5 - (0x1000 - 0xFFD))).map (fun j => ramh.heap j)), ramh) ∧
      (RAM.write_bytes rcfg_liberal ramh [11, 22, 33, 44, 55] 0xFFD).map
          (fun r => (r.1, r.2.heap ((0xFFD + 4) % 0x1000))) =
        some (true, ([11, 22, 33, 44, 55] : List Nat).getD 4 0) :=
  ⟨by decide, by decide, by decide, by decide, rfl, by decide,
    (C3_heap_read_write rcfg_liberal ramh 0xFFD 5 4 0 [11, 22, 33, 44, 55]
      (by decide) (by decide) (by decide)).2.1 (by decide) rfl,
    (C3_heap_read_write rcfg_liberal ramh 0xFFD 5 4 0 [11, 22, 33, 44, 55]
      (by decide) (by decide) (by decide)).2.2.2.2.2.1 (by decide) rfl (by decide)⟩

/-! ### Claim C6 -/


/-- Claim C6 as stated is false at PC = 0xFFF with the PC-overflow policy
permissive but the heap-overflow policy restrictive: the claim predicts a
successful fetch that advances PC, but `read_bytes(0xFFF, 2)` crosses
0x1000, fails, clears `active`, and no opcode is produced — PC stays
0xFFF. -/
theorem C6_counterexample :
    (CPU.fetch_instruction ccfg_true rcfg_conservative cpuF).map
        (fun p => (p.1, p.2.pc, p.2.ram.active)) = some (none, 0xFFF, false) := by
  decide

/-- Claim C6 (amended): when PC ≥ 0xFFE and PC overflow is disallowed, both
the fetch and the skip step abort with no instruction, `active` cleared and
PC unchanged.  Otherwise the fetch reads two bytes at PC through
`read_bytes` — so at PC = 0xFFF the read is governed by the heap-overflow
policy, wrapping to address 0 when allowed and otherwise failing with
`active` cleared and PC unchanged — and on a successful read yields the big-endian
opcode and advances PC to (PC + 2) mod 0x1000.  The skip step always
advances PC to (PC + 2) mod 0x1000 when it does not abort. -/
theorem C6_fetch_policy (ccfg : CPUConfig) (rcfg : RAMConfig) (s : CPUState)
    (hpc : s.pc ≤ 0xFFF) :
    (s.pc ≥ 0xFFE → ccfg.allow_program_counter_overflow = false →
      CPU.fetch_instruction ccfg rcfg s =
          some (none, { s with ram := { s.ram with active := false } }) ∧
        CPU.increment_pc ccfg s =
          (false, { s with ram := { s.ram with active := false } })) ∧
    (¬(s.pc ≥ 0xFFE ∧ ccfg.allow_program_counter_overflow = false) →
      s.pc + 2 ≤ 0x1000 →
      CPU.fetch_instruction ccfg rcfg s =
        some (some ((s.ram.heap s.pc) <<< 8 ||| s.ram.heap (s.pc + 1)),
          { s with pc := (s.pc + 2) % 0x1000 })) ∧
    (s.pc = 0xFFF → ccfg.allow_program_counter_overflow = true →
      rcfg.allow_heap_overflow = false →
      CPU.fetch_instruction ccfg rcfg s =
        some (none, { s with ram := { s.ram with active := false } })) ∧
    (s.pc = 0xFFF → ccfg.allow_program_counter_overflow = true →
      rcfg.allow_heap_overflow = true →
      CPU.fetch_instruction ccfg rcfg s =
        some (some ((s.ram.heap 0xFFF) <<< 8 ||| s.ram.heap 0),
          { s with pc := (s.pc + 2) % 0x1000 })) ∧
    (¬(s.pc ≥ 0xFFE ∧ ccfg.allow_program_counter_overflow = false) →
      CPU.increment_pc ccfg s = (true, { s with pc := (s.pc + 2) % 0x1000 })) := by
  refine ⟨?_, ?_, ?_, ?_, ?_⟩
  · intro h1 h2
    constructor <;> simp [CPU.fetch_instruction, CPU.increment_pc, h1, h2]
  · intro h1 h2
    have hread : RAM.read_bytes rcfg s.ram s.pc 2 =
        some (some [s.ram.heap s.pc, s.ram.heap (s.pc + 1)], s.ram) := by
      have hnot : ¬ ((4096 : Nat) < s.pc + 2) := by omega
      simp only [RAM.read_bytes, HEAP_SIZE, hnot, if_false]
      rfl
    simp [CPU.fetch_instruction, h1, hread]
  · intro h1 h2 h3
    have hread : RAM.read_bytes rcfg s.ram s.pc 2 =
        some (none, { s.ram with active := false }) := by
      have hout : (4096 : Nat) < s.pc + 2 := by omega
      simp [RAM.read_bytes, HEAP_SIZE, hout, h3]
    rw [h1] at hread
    simp [CPU.fetch_instruction, h1, h2, hread]
  · intro h1 h2 h3
    have hread : RAM.read_bytes rcfg s.ram s.pc 2 =
        some (some [s.ram.heap 0xFFF, s.ram.heap 0], s.ram) := by
      rw [h1]
      have hout : (4096 : Nat) < 0xFFF + 2 := by omega
      have hguard : ¬ ((4096 : Nat) < 0xFFF ∨ (4096 : Nat) < 2 - (4096 - 0xFFF)) := by omega
      simp only [RAM.read_bytes, HEAP_SIZE, hout, if_true, h3, Bool.true_eq_false, if_false,
        hguard]
      rfl
    rw [h1] at hread
    simp [CPU.fetch_instruction, h1, h2, hread]
  · intro h1
    simp [CPU.increment_pc, h1]

/-- Witness for C6: a normal fetch at PC = 0x200 from the heap whose byte
at address a is a % 256 yields the opcode 0x0001 and PC = 0x202. -/
theorem C6_fetch_policy_witness :
    ({ ram := ramh, pc := 0x200, index := 0, v := fun _ => 0 } : CPUState).pc ≤ 0xFFF ∧
      ¬(({ ram := ramh, pc := 0x200, index := 0, v := fun _ => 0 } : CPUState).pc ≥ 0xFFE ∧
        ccfg_false.allow_program_counter_overflow = false) ∧
      ({ ram := ramh, pc := 0x200, index := 0, v := fun _ => 0 } : CPUState).pc + 2 ≤ 0x1000 ∧
      CPU.fetch_instruction ccfg_false rcfg_conservative
          { ram := ramh, pc := 0x200, index := 0, v := fun _ => 0 } =
        some (some ((ramh.heap 0x200) <<< 8 ||| ramh.heap (0x200 + 1)),
          { ({ ram := ramh, pc := 0x200, index := 0, v := fun _ => 0 } : CPUState) with
              pc := (0x200 + 2) % 0x1000 }) :=
  ⟨by decide, by decide, by decide,
    (C6_fetch_policy ccfg_false rcfg_conservative
        { ram := ramh, pc := 0x200, index := 0, v := fun _ => 0 } (by decide)).2.1
      (by decide) (by decide)⟩

/-! ### Claim C9 -/

theorem getD_map_range (n : Nat) (f : Nat → Nat) (j : Nat) (hj : j < n) :
    ((List.range n).map f).getD j 0 = f j := by
  rw [List.getD_eq_getElem?_getD, List.getElem?_map, List.getElem?_range hj]
  rfl

theorem getD_append_left (A B : List Nat) (j : Nat) (h : j < A.length) :
    (A ++ B).getD j 0 = A.getD j 0 := by
  rw [List.getD_eq_getElem?_getD, List.getD_eq_getElem?_getD, List.getElem?_append,
    if_pos h]

theorem getD_append_right (A B : List Nat) (j : Nat) (h : A.length ≤ j) :
    (A ++ B).getD j 0 = B.getD (j - A.length) 0 := by
  rw [List.getD_eq_getElem?_getD, List.getD_eq_getElem?_getD,
    List.getElem?_append_right h]

/-- A successful `read_bytes` (in range or wrap allowed, count ≤ 0x1000)
returns a list of length `count` whose byte `j` is the heap byte at
`(addr + j) % 0x1000`, and leaves the state untouched. -/
theorem read_bytes_getD (cfg : RAMConfig) (s : RAMState) (addr count : Nat)
    (haddr : addr ≤ 0xFFF) (hcount : count ≤ 0x1000)
    (hok : addr + count ≤ 0x1000 ∨ cfg.allow_heap_overflow = true) :
    ∃ bytes, RAM.read_bytes cfg s addr count = some (some bytes, s) ∧
      bytes.length = count ∧
      ∀ j, j < count → bytes.getD j 0 = s.heap ((addr + j) % 0x1000) := by
  by_cases hin : addr + count ≤ 0x1000
  · refine ⟨(List.range count).map (fun j => s.heap (addr + j)), ?_, by simp, ?_⟩
    · have hnot : ¬ ((4096 : Nat) < addr + count) := by omega
      simp [RAM.read_bytes, HEAP_SIZE, hnot]
    · intro j hj
      rw [getD_map_range count _ j hj, Nat.mod_eq_of_lt (by omega)]
  · have ha : cfg.allow_heap_overflow = true := by
      rcases hok with h | h
      · omega
      · exact h
    refine ⟨(List.range (4096 - addr)).map (fun j => s.heap (addr + j)) ++
        (List.range (count - (4096 - addr))).map (fun j => s.heap j), ?_, ?_, ?_⟩
    · have hout : (4096 : Nat) < addr + count := by omega
      have hguard : ¬ ((4096 : Nat) < addr ∨ 4096 < count - (4096 - addr)) := by omega
      simp [RAM.read_bytes, HEAP_SIZE, hout, ha, hguard]
    · simp; omega
    · intro j hj
      by_cases hcase : j < 4096 - addr
      · rw [getD_append_left _ _ j (by simpa using hcase),
          getD_map_range _ _ j hcase, Nat.mod_eq_of_lt (by omega)]
      · rw [getD_append_right _ _ j (by simpa using Nat.not_lt.mp hcase)]
        have hj' : j - ((List.range (4096 - addr)).map
            (fun j => s.heap (addr + j))).length = j - (4096 - addr) := by simp
        rw [hj', getD_map_range _ _ _ (by omega),
          show (addr + j) % 0x1000 = j - (4096 - addr) by omega]

/-- A successful `write_bytes` (in range or wrap allowed, length ≤ 0x1000)
returns `true`, keeps `active`, and stores byte `j` of `vals` at heap
address `(addr + j) % 0x1000`. -/
theorem write_bytes_heap (cfg : RAMConfig) (s : RAMState) (vals : List Nat) (addr : Nat)
    (haddr : addr ≤ 0xFFF) (hvals : vals.length ≤ 0x1000)
    (hok : addr + vals.length ≤ 0x1000 ∨ cfg.allow_heap_overflow = true) :
    ∃ ram', RAM.write_bytes cfg s vals addr = some (true, ram') ∧
      ram'.active = s.active ∧
      ∀ j, j < vals.length → ram'.heap ((addr + j) % 0x1000) = vals.getD j 0 := by
  by_cases hin : addr + vals.length ≤ 0x1000
  · have hnot : ¬ ((4096 : Nat) < addr + vals.length) := by omega
    refine ⟨⟨s.active,
        fun a => if addr ≤ a ∧ a < addr + vals.length then vals.getD (a - addr) 0
          else s.heap a,
        s.stack, s.stack_ptr⟩,
      by simp [RAM.write_bytes, HEAP_SIZE, hnot], rfl, ?_⟩
    intro j hj
    have hmod : (addr + j) % 0x1000 = addr + j := Nat.mod_eq_of_lt (by omega)
    show (if addr ≤ (addr + j) % 0x1000 ∧ (addr + j) % 0x1000 < addr + vals.length then
        vals.getD ((addr + j) % 0x1000 - addr) 0
      else s.heap ((addr + j) % 0x1000)) = vals.getD j 0
    rw [hmod, if_pos ⟨by omega, by omega⟩, show addr + j - addr = j by omega]
  · have ha : cfg.allow_heap_overflow = true := by
      rcases hok with h | h
      · omega
      · exact h
    have hout : (4096 : Nat) < addr + vals.length := by omega
    have hguard : ¬ ((4096 : Nat) < addr ∨ 4096 < vals.length - (4096 - addr)) := by omega
    refine ⟨⟨s.active,
        fun a => if a < vals.length - (4096 - addr) then vals.getD (4096 - addr + a) 0
          else if addr ≤ a ∧ a < 4096 then vals.getD (a - addr) 0
          else s.heap a,
        s.stack, s.stack_ptr⟩,
      by simp [RAM.write_bytes, HEAP_SIZE, hout, ha, hguard], rfl, ?_⟩
    intro j hj
    by_cases hcase : j < 4096 - addr
    · have hmod : (addr + j) % 0x1000 = addr + j := Nat.mod_eq_of_lt (by omega)
      show (if (addr + j) % 0x1000 < vals.length - (4096 - addr) then
          vals.getD (4096 - addr + (addr + j) % 0x1000) 0
        else if addr ≤ (addr + j) % 0x1000 ∧ (addr + j) % 0x1000 < 4096 then
          vals.getD ((addr + j) % 0x1000 - addr) 0
        else s.heap ((addr + j) % 0x1000)) = vals.getD j 0
      rw [hmod, if_neg (by omega), if_pos ⟨by omega, by omega⟩,
        show addr + j - addr = j by omega]
    · have hmod : (addr + j) % 0x1000 = addr + j - 0x1000 := by omega
      show (if (addr + j) % 0x1000 < vals.length - (4096 - addr) then
          vals.getD (4096 - addr + (addr + j) % 0x1000) 0
        else if addr ≤ (addr + j) % 0x1000 ∧ (addr + j) % 0x1000 < 4096 then
          vals.getD ((addr + j) % 0x1000 - addr) 0
        else s.heap ((addr + j) % 0x1000)) = vals.getD j 0
      rw [hmod, if_pos (by omega), show 4096 - addr + (addr + j - 0x1000) = j by omega]

/-- The v registers are untouched by `increment_index_reg_ref_by`. -/
theorem increment_index_keeps_v (ccfg : CPUConfig) (t : CPUState) (k : Nat) :
    (CPU.increment_index_reg_ref_by ccfg t k).2.v = t.v := by
  simp only [CPU.increment_index_reg_ref_by]
  split_ifs <;> rfl

/-- Claim C9: with the three-byte write and the (x+1)-byte read in range or
heap wrap allowed, and 2 ≤ x ≤ 15, executing `Fx33` then `Fx65` at the same
index register leaves V0 = Vx/100, V1 = (Vx/10)%10, V2 = Vx%10. -/
theorem C9_bcd_roundtrip (ccfg : CPUConfig) (rcfg : RAMConfig) (s : CPUState) (x : Nat)
    (hx2 : 2 ≤ x) (hx15 : x ≤ 15) (hI : s.index ≤ 0xFFF) (hv : s.v x < 256)
    (hw : s.index + 3 ≤ 0x1000 ∨ rcfg.allow_heap_overflow = true)
    (hr : s.index + (x + 1) ≤ 0x1000 ∨ rcfg.allow_heap_overflow = true) :
    ((Instructions.i_Fx33_LD_B_Vx rcfg s x).bind
        (fun s1 => Instructions.i_Fx65_LD_Vx_I ccfg rcfg s1 x)).map
      (fun s2 => (s2.v 0, s2.v 1, s2.v 2)) =
      some (s.v x / 100, (s.v x / 10) % 10, s.v x % 10) := by
  obtain ⟨ram', hw_eq, hact, hpt⟩ := write_bytes_heap rcfg s.ram
    [s.v x / 100, (s.v x / 10) % 10, s.v x % 10] s.index hI (by simp) (by simpa using hw)
  have h33 : Instructions.i_Fx33_LD_B_Vx rcfg s x = some { s with ram := ram' } := by
    simp [Instructions.i_Fx33_LD_B_Vx, hw_eq]
  obtain ⟨bytes, hr_eq, hlen, hbt⟩ := read_bytes_getD rcfg ram' s.index (x + 1) hI
    (by omega) (by simpa using hr)
  have hval : ∀ k, k < 3 → CPU.set_v_reg_range s.v 0 bytes k =
      ([s.v x / 100, (s.v x / 10) % 10, s.v x % 10] : List Nat).getD k 0 := by
    intro k hk
    show (if 0 ≤ k ∧ k < 0 + bytes.length then bytes.getD (k - 0) 0 else s.v k) = _
    rw [if_pos ⟨Nat.zero_le k, by omega⟩, Nat.sub_zero, hbt k (by omega), hpt k (by simpa)]
  rw [h33, Option.some_bind]
  simp only [Instructions.i_Fx65_LD_Vx_I, hr_eq]
  by_cases hm : ccfg.move_index_with_reads
  · simp [hm, increment_index_keeps_v, hval 0 (by omega), hval 1 (by omega),
      hval 2 (by omega)]
  · simp [hm, hval 0 (by omega), hval 1 (by omega), hval 2 (by omega)]

/-- Witness for C9: V3 = 156 written as BCD at I = 0x300 and read back with
`F365` yields V0 = 1, V1 = 5, V2 = 6. -/
theorem C9_bcd_roundtrip_witness :
    (2 : Nat) ≤ 3 ∧ (3 : Nat) ≤ 15 ∧
      ({ ram := ram0, pc := 0x200, index := 0x300,
          v := fun r => if r = 3 then 156 else 0 } : CPUState).index ≤ 0xFFF ∧
      ({ ram := ram0, pc := 0x200, index := 0x300,
          v := fun r => if r = 3 then 156 else 0 } : CPUState).v 3 < 256 ∧
      (0x300 + 3 ≤ 0x1000 ∨ rcfg_conservative.allow_heap_overflow = true) ∧
      (0x300 + (3 + 1) ≤ 0x1000 ∨ rcfg_conservative.allow_heap_overflow = true) ∧
      ((Instructions.i_Fx33_LD_B_Vx rcfg_conservative
          { ram := ram0, pc := 0x200, index := 0x300,
            v := fun r => if r = 3 then 156 else 0 } 3).bind
        (fun s1 => Instructions.i_Fx65_LD_Vx_I ccfg_false rcfg_conservative s1 3)).map
          (fun s2 => (s2.v 0, s2.v 1, s2.v 2)) =
        some (156 / 100, (156 / 10) % 10, 156 % 10) :=
  ⟨by decide, by decide, by decide, by decide, Or.inl (by decide), Or.inl (by decide),
    C9_bcd_roundtrip ccfg_false rcfg_conservative
      { ram := ram0, pc := 0x200, index := 0x300, v := fun r => if r = 3 then 156 else 0 } 3
      (by decide) (by decide) (by decide) (by decide)
      (Or.inl (by decide)) (Or.inl (by decide))⟩

end Chip8
